import Mathlib

/-!
Verification of the row-indexing, logging and sequence-adaptation layer of
psycopg2's `extras` module (`src/lib/extras.py`), shallowly embedded in Lean.

The embedding follows the source:
* `DictCursor` / `DictRow` keep a shared, per-execution mapping from column
  name to ordinal position.  Because rows hold a live reference to the dict
  owned by the cursor (`self._index = cursor.index`), the embedding models an
  explicit heap of index dicts (`store`), with the cursor and each row holding
  a position into that heap.
* `LoggingConnection` / `LoggingCursor` and their minimum-time variants are
  modelled with explicit event traces for the underlying call, the filter
  invocation and the sink writes.
* `SQL_IN` is the sequence-to-SQL-literal adapter.
-/

set_option autoImplicit false

universe u

/-- Python-level errors and control signals raised by the embedded code. -/
inductive PyErr where
  | keyError
  | indexError
  | stopIteration
  | nameError
  | programmingError
  deriving DecidableEq, Repr

/-! ### A model of the Python dict used for `DictCursor.index`

Only string keys and natural-number values occur (`self.index[name] = i`).
Assignment overwrites the binding when the key is present and appends a new
binding otherwise; lookup returns the binding's value. -/

/-- The column index dict: association list from column name to position. -/
abbrev Dict := List (String × Nat)

/-- Membership test for a key, as Python's `k in d`. -/
def containsKey : Dict → String → Bool
  | [], _ => false
  | p :: ps, k => p.1 = k || containsKey ps k

/-- Python dict assignment `d[k] = v`: overwrite the existing binding for `k`
if present, otherwise append a fresh binding. -/
def dinsert (d : Dict) (k : String) (v : Nat) : Dict :=
  if containsKey d k then
    d.map (fun p => if p.1 = k then (k, v) else p)
  else d ++ [(k, v)]

/-- Python dict lookup `d[k]`, as an `Option`. -/
def dget : Dict → String → Option Nat
  | [], _ => none
  | p :: ps, k => if p.1 = k then some p.2 else dget ps k

/-! ### Index construction (`DictCursor._build_index`)

The source loop is `for i in range(len(self.description)):
self.index[self.description[i][0]] = i`; only the column name (entry 0 of a
descriptor) is used, so descriptors are modelled as their names. -/

/-- The loop body of `_build_index`, starting from dict `d` and position
`start`: insert each remaining name at its ordinal position. -/
def buildIndexFrom (d : Dict) : List String → Nat → Dict
  | [], _ => d
  | nm :: rest, start => buildIndexFrom (dinsert d nm start) rest (start + 1)

/-- The index built by `_build_index` from a fresh (empty) dict. -/
def buildIndexMap (desc : List String) : Dict :=
  buildIndexFrom [] desc 0

/-- Position of the last occurrence of `name` in a name list, if any. -/
def lastOcc : List String → String → Option Nat
  | [], _ => none
  | nm :: rest, name =>
    match lastOcc rest name with
    | some k => some (k + 1)
    | none => if nm = name then some 0 else none

/-! ### `DictRow` and the `DictCursor` state machine

The cursor's mutable state is modelled by `PGMachine`: the underlying
cursor's `description` (column names of the current result) and the rows not
yet fetched (`pending`), plus the `DictCursor` additions: the mangled flag
`__query_executed` and the current index.  Python rows keep a live reference
to the cursor's index dict (`self._index = cursor.index`), so index dicts
live in an explicit heap `store` and both the cursor (`curIdx`) and each row
(`idxRef`) hold a position into it; `DictCursor.execute` allocates a fresh
empty dict and `_build_index` mutates the dict at the cursor's position. -/

/-- A row produced by the `DictRow` row factory: cells (initially `none`,
then filled positionally from the fetched raw row) plus a reference into the
heap of index dicts. -/
structure DictRow (α : Type u) where
  idxRef : Nat
  cells : List (Option α)
  deriving DecidableEq, Repr

/-- Fill the `[None] * len(cursor.description)` cell list positionally with
the values of the fetched raw row. -/
def fillCells {α : Type u} : List (Option α) → List α → List (Option α)
  | cs, [] => cs
  | [], _ => []
  | _ :: cs, v :: vs => some v :: fillCells cs vs

/-- Construction of a `DictRow`: `__init__` stores the cursor's index
reference and sets the length to the column count; the driver then fills the
cells from the raw row. -/
def makeDictRow {α : Type u} (ref descLen : Nat) (raw : List α) : DictRow α :=
  { idxRef := ref, cells := fillCells (List.replicate descLen none) raw }

/-- Python `list.__getitem__` restricted to non-negative indices: value or
`IndexError`. -/
def listGet {α : Type u} (l : List (Option α)) (i : Nat) :
    Except PyErr (Option α) :=
  match l[i]? with
  | some v => .ok v
  | none => .error .indexError

/-- An argument to `DictRow.__getitem__`: a (non-negative) integer or a
column name. -/
inductive PyKey where
  | int (i : Nat)
  | str (s : String)
  deriving DecidableEq, Repr

/-- `DictRow.__getitem__`: a non-integer key is first translated through the
shared index dict (`KeyError` when absent), then the positional value is
returned. -/
def DictRow.getitem {α : Type u} (store : List Dict) (r : DictRow α)
    (k : PyKey) : Except PyErr (Option α) :=
  match k with
  | .int i => listGet r.cells i
  | .str s =>
    match dget (store.getD r.idxRef []) s with
    | some i => listGet r.cells i
    | none => .error .keyError

/-- The mutable state of a `DictCursor` together with the heap of index
dicts allocated so far. -/
structure PGMachine (α : Type u) where
  store : List Dict
  curIdx : Nat
  description : List String
  pending : List (List α)
  queryExecuted : Bool
  deriving DecidableEq, Repr

namespace DictCursor

variable {α : Type u}

/-- `DictCursor.execute`: set the row factory, allocate a fresh empty index
dict, set `__query_executed = 1` and delegate to the underlying execution
primitive, which installs the new statement's column descriptors and result
rows. -/
def execute (m : PGMachine α) (desc : List String) (rows : List (List α)) :
    PGMachine α :=
  { store := m.store ++ [[]]
    curIdx := m.store.length
    description := desc
    pending := rows
    queryExecuted := true }

/-- `DictCursor.callproc` has the same index bookkeeping as `execute`. -/
def callproc (m : PGMachine α) (desc : List String) (rows : List (List α)) :
    PGMachine α :=
  execute m desc rows

/-- `DictCursor._build_index`: when `__query_executed == 1` and the statement
produced column descriptors, write each name's ordinal position into the
cursor's current index dict and clear the flag. -/
def buildIndex (m : PGMachine α) : PGMachine α :=
  if m.queryExecuted && !m.description.isEmpty then
    { m with
        store := m.store.set m.curIdx
          (buildIndexFrom (m.store.getD m.curIdx []) m.description 0)
        queryExecuted := false }
  else m

/-- The `if self.__query_executed: self._build_index()` step shared by all
fetch methods. -/
def buildCheck (m : PGMachine α) : PGMachine α :=
  if m.queryExecuted then buildIndex m else m

/-- `DictCursor.fetchone`: delegate to the underlying fetch (which wraps the
raw row through the row factory), then run the index-build check. -/
def fetchone (m : PGMachine α) : Option (DictRow α) × PGMachine α :=
  let res := match m.pending with
    | [] => none
    | r :: _ => some (makeDictRow m.curIdx m.description.length r)
  (res, buildCheck { m with pending := m.pending.drop 1 })

/-- `DictCursor.fetchmany`: fetch up to `size` rows, then run the
index-build check. -/
def fetchmany (m : PGMachine α) (size : Nat) :
    List (DictRow α) × PGMachine α :=
  ((m.pending.take size).map (makeDictRow m.curIdx m.description.length),
   buildCheck { m with pending := m.pending.drop size })

/-- `DictCursor.fetchall`: fetch every remaining row, then run the
index-build check. -/
def fetchall (m : PGMachine α) : List (DictRow α) × PGMachine α :=
  (m.pending.map (makeDictRow m.curIdx m.description.length),
   buildCheck { m with pending := [] })

/-- `DictCursor.next`: delegate to the underlying fetch; when it yields no
row, raise `StopIteration` at once (before the index-build check); otherwise
run the check and return the row. -/
def next (m : PGMachine α) : Except PyErr (DictRow α) × PGMachine α :=
  match m.pending with
  | [] => (.error .stopIteration, m)
  | r :: rest =>
    (.ok (makeDictRow m.curIdx m.description.length r),
     buildCheck { m with pending := rest })

end DictCursor

/-! ### Logging connections and cursors

`LoggingCursor.execute` / `callproc` wrap the underlying primitive in a
`try`/`finally` that calls `self.connection.log(self.query, self)`.  The
underlying outcome is modelled as a given `Except` value, the materialised
statement text (`self.query`) as a given string, and the effects as an event
trace: the underlying call, the filter invocation and any sink write. -/

/-- Observable events of a logging cursor operation. -/
inductive Ev where
  | underlyingExec (q : String)
  | underlyingCallproc (p : String)
  | filterCalled (m : String)
  | wrote (s : String)
  deriving DecidableEq, Repr

/-- The line separator appended by the file sink (`os.linesep`). -/
def osLinesep : String := "\n"

namespace LoggingConnection

/-- `LoggingConnection.filter`: the base filter returns the message
unchanged (always log). -/
def filter (msg : String) : Option String := some msg

/-- Write effect of `LoggingConnection._logtofile`: filter the message and,
when the result is truthy (neither `None` nor the empty string), write it
followed by the line separator. -/
def logtofile (filt : String → Option String) (msg : String) : List String :=
  match filt msg with
  | some m => if m = "" then [] else [m ++ osLinesep]
  | none => []

/-- Event trace of one `self.connection.log(msg, self)` call through the
file sink. -/
def logCall (filt : String → Option String) (msg : String) : List Ev :=
  Ev.filterCalled msg :: (logtofile filt msg).map Ev.wrote

/-- Connection state: `_logobj` exists exactly after initialisation. -/
structure State (σ : Type u) where
  logobj : Option σ
  deriving DecidableEq, Repr

/-- The source's `initialize` method: record the sink object. -/
def init {σ : Type u} (_c : State σ) (s : σ) : State σ := { logobj := some s }

/-- `LoggingConnection._check`: raise `ProgrammingError` when `_logobj` has
not been set. -/
def check {σ : Type u} (c : State σ) : Except PyErr Unit :=
  if c.logobj.isSome then .ok () else .error .programmingError

end LoggingConnection

namespace LoggingCursor

/-- `LoggingCursor.execute`: delegate to the underlying execute primitive
inside `try`/`finally`; the cleanup logs the materialised statement text and
the underlying outcome, success or error, reaches the caller unchanged. -/
def execute {ε ρ : Type u} (underlying : Except ε ρ) (queryText : String)
    (filt : String → Option String) : Except ε ρ × List Ev :=
  (underlying,
   Ev.underlyingExec queryText :: LoggingConnection.logCall filt queryText)

/-- `LoggingCursor.callproc`: the same guaranteed-cleanup logging around the
underlying procedure-call primitive. -/
def callproc {ε ρ : Type u} (underlying : Except ε ρ) (queryText : String)
    (filt : String → Option String) : Except ε ρ × List Ev :=
  (underlying,
   Ev.underlyingCallproc queryText :: LoggingConnection.logCall filt queryText)

end LoggingCursor

/-- `LoggingConnection.cursor` followed by `LoggingCursor.execute` on the
cursor it returns: `_check` runs when the cursor is requested, before any
statement execution can happen. -/
def connCursorExecute {σ ε ρ : Type u} (c : LoggingConnection.State σ)
    (underlying : Except ε ρ) (queryText : String)
    (filt : String → Option String) : Except PyErr (Except ε ρ) × List Ev :=
  match LoggingConnection.check c with
  | .error e => (.error e, [])
  | .ok _ =>
    (.ok (LoggingCursor.execute underlying queryText filt).1,
     (LoggingCursor.execute underlying queryText filt).2)

/-- Truncation toward zero: the behaviour of Python's `"%d" %` formatting on
a float value. -/
def pyTrunc (q : ℚ) : Int := if q < 0 then -⌊-q⌋ else ⌊q⌋

namespace MinTimeLoggingConnection

/-- `MinTimeLoggingConnection.filter`: compute the elapsed milliseconds
`(time.time() - curs.timestamp) * 1000`; return the message with a timing
suffix when it strictly exceeds `_mintime`, and `None` otherwise. -/
def filter (mintime now timestamp : ℚ) (msg : String) : Option String :=
  let t : ℚ := (now - timestamp) * 1000
  if t > mintime then
    some (msg ++ osLinesep ++ "  (execution time: " ++
      toString (pyTrunc t) ++ " ms)")
  else none

end MinTimeLoggingConnection

namespace MinTimeLoggingCursor

/-- Timestamp state held on a `MinTimeLoggingCursor` instance. -/
structure State where
  timestamp : Option ℚ
  deriving DecidableEq, Repr

/-- `MinTimeLoggingCursor.execute`: record the start timestamp, then
delegate to `LoggingCursor.execute`. -/
def execute {ε ρ : Type u} (_st : State) (now : ℚ) (underlying : Except ε ρ)
    (queryText : String) (filt : String → Option String) :
    State × (Except ε ρ × List Ev) :=
  ({ timestamp := some now }, LoggingCursor.execute underlying queryText filt)

/-- `MinTimeLoggingCursor.callproc` as written in the source: it records the
timestamp and then evaluates `LoggingCursor.execute(self, procname, var)`.
The name `var` is unbound (the parameter is `vars`), so evaluating the
argument list raises `NameError` before any delegation happens; no
underlying call, filter call or write takes place. -/
def callproc {ρ : Type u} (_st : State) (now : ℚ) (_procname : String) :
    State × (Except PyErr ρ × List Ev) :=
  ({ timestamp := some now }, (.error .nameError, []))

end MinTimeLoggingCursor

/-! ### `SQL_IN`, the sequence-to-SQL-literal adapter -/

namespace SQL_IN

/-- Python's `sep.join(pieces)`. -/
def pyJoin (sep : String) : List String → String
  | [] => ""
  | [x] => x
  | x :: y :: xs => x ++ sep ++ pyJoin sep (y :: xs)

/-- `SQL_IN.getquoted`: adapt every element of the wrapped sequence through
the external adaptation collaborator, take each element's quoted literal
text, join the pieces with a comma and space, and parenthesise the whole. -/
def getquoted {α : Type u} (adaptQuoted : α → String) (seq : List α) :
    String :=
  "(" ++ pyJoin ", " (seq.map adaptQuoted) ++ ")"

end SQL_IN

/-! ## Theorems -/

/-! ### Dict lemmas -/

theorem dget_map_overwrite_self (d : Dict) (k : String) (v : Nat)
    (h : containsKey d k = true) :
    dget (d.map (fun p => if p.1 = k then (k, v) else p)) k = some v := by
  induction d with
  | nil => simp [containsKey] at h
  | cons p ps ih =>
    by_cases hp : p.1 = k
    · simp [dget, hp]
    · simp [containsKey, hp] at h
      simp [dget, hp, ih h]

theorem dget_map_overwrite_ne (d : Dict) (k : String) (v : Nat) (q : String)
    (h : q ≠ k) :
    dget (d.map (fun p => if p.1 = k then (k, v) else p)) q = dget d q := by
  induction d with
  | nil => simp [dget]
  | cons p ps ih =>
    by_cases hp : p.1 = k
    · have hne : k ≠ q := fun hkq => h hkq.symm
      have hne2 : p.1 ≠ q := by rw [hp]; exact hne
      simp [dget, hp, hne, hne2, ih]
    · by_cases hq : p.1 = q
      · simp [dget, hp, hq, h]
      · simp [dget, hp, hq, ih]

theorem dget_append_single (d : Dict) (k : String) (v : Nat) (q : String) :
    dget (d ++ [(k, v)]) q =
      match dget d q with
      | some w => some w
      | none => if k = q then some v else none := by
  induction d with
  | nil => simp [dget]
  | cons p ps ih =>
    by_cases hq : p.1 = q
    · simp [dget, hq]
    · simp [dget, hq, ih]

/-- Characterisation of dict assignment followed by lookup. -/
theorem dget_dinsert (d : Dict) (k : String) (v : Nat) (q : String) :
    dget (dinsert d k v) q = if q = k then some v else dget d q := by
  unfold dinsert
  by_cases hmem : containsKey d k
  · by_cases hqk : q = k
    · subst hqk
      simp [hmem, dget_map_overwrite_self d q v hmem]
    · simp [hmem, hqk, dget_map_overwrite_ne d k v q hqk]
  · have hnone : dget d k = none := by
      induction d with
      | nil => simp [dget]
      | cons p ps ih =>
        simp [containsKey] at hmem
        push_neg at hmem
        simp [dget, hmem.1, ih (by simp [containsKey, hmem.2])]
    simp only [hmem, Bool.false_eq_true, if_false]
    rw [dget_append_single]
    by_cases hqk : q = k
    · subst hqk
      simp [hnone]
    · have hkq : k ≠ q := fun h => hqk h.symm
      cases hd : dget d q with
      | some w => simp [hd, hqk]
      | none => simp [hd, hqk, hkq]

/-! ### Built-index lemmas -/

theorem dget_buildIndexFrom (desc : List String) :
    ∀ (d : Dict) (start : Nat) (name : String),
      dget (buildIndexFrom d desc start) name =
        match lastOcc desc name with
        | some k => some (start + k)
        | none => dget d name := by
  induction desc with
  | nil => intro d start name; simp [buildIndexFrom, lastOcc]
  | cons nm rest ih =>
    intro d start name
    simp only [buildIndexFrom, lastOcc]
    rw [ih (dinsert d nm start) (start + 1) name]
    cases h : lastOcc rest name with
    | some k =>
      simp only [h]
      congr 1
      omega
    | none =>
      simp only [h]
      rw [dget_dinsert]
      by_cases hq : name = nm
      · subst hq
        simp
      · have hnq : nm ≠ name := fun h2 => hq h2.symm
        simp [hq, hnq]

theorem lastOcc_lt_length (desc : List String) (name : String) (k : Nat)
    (h : lastOcc desc name = some k) : k < desc.length := by
  induction desc generalizing k with
  | nil => simp [lastOcc] at h
  | cons nm rest ih =>
    simp only [lastOcc] at h
    cases hr : lastOcc rest name with
    | some j =>
      rw [hr] at h
      cases h
      have := ih j hr
      simp
      omega
    | none =>
      rw [hr] at h
      by_cases hnm : nm = name
      · simp [hnm] at h
        subst h
        simp
      · simp [hnm] at h

/-- The position reported by `lastOcc` indeed carries the name. -/
theorem lastOcc_get (desc : List String) (name : String) (k : Nat)
    (h : lastOcc desc name = some k) :
    ∃ hk : k < desc.length, desc.get ⟨k, hk⟩ = name := by
  induction desc generalizing k with
  | nil => simp [lastOcc] at h
  | cons nm rest ih =>
    simp only [lastOcc] at h
    cases hr : lastOcc rest name with
    | some j =>
      rw [hr] at h
      cases h
      obtain ⟨hj, hgetj⟩ := ih j hr
      exact ⟨by simpa using Nat.succ_lt_succ hj, by simpa using hgetj⟩
    | none =>
      rw [hr] at h
      by_cases hnm : nm = name
      · simp [hnm] at h
        subst h
        exact ⟨by simp, by simpa using hnm⟩
      · simp [hnm] at h

/-- If `name` occurs nowhere in `desc`, `lastOcc` reports nothing. -/
theorem lastOcc_eq_none (desc : List String) (name : String)
    (h : ∀ k (hk : k < desc.length), desc.get ⟨k, hk⟩ ≠ name) :
    lastOcc desc name = none := by
  cases hr : lastOcc desc name with
  | none => rfl
  | some k =>
    obtain ⟨hk, hget⟩ := lastOcc_get desc name k hr
    exact absurd hget (h k hk)

/-- If `j` is the position of the last occurrence of `name`, `lastOcc` finds
exactly `j`. -/
theorem lastOcc_of_last (desc : List String) (name : String) (j : Nat)
    (hj : j < desc.length) (hget : desc.get ⟨j, hj⟩ = name)
    (hlast : ∀ k (hk : k < desc.length), j < k → desc.get ⟨k, hk⟩ ≠ name) :
    lastOcc desc name = some j := by
  induction desc generalizing j with
  | nil => simp at hj
  | cons nm rest ih =>
    cases j with
    | zero =>
      have hnm : nm = name := by simpa using hget
      have hnone : lastOcc rest name = none := by
        apply lastOcc_eq_none
        intro k hk
        have := hlast (k + 1) (by simpa using Nat.succ_lt_succ hk)
          (Nat.succ_pos k)
        simpa using this
      simp [lastOcc, hnone, hnm]
    | succ j0 =>
      have hj0 : j0 < rest.length := by simpa using Nat.lt_of_succ_lt_succ hj
      have hget0 : rest.get ⟨j0, hj0⟩ = name := by simpa using hget
      have hlast0 : ∀ k (hk : k < rest.length), j0 < k →
          rest.get ⟨k, hk⟩ ≠ name := by
        intro k hk hjk
        have := hlast (k + 1) (by simpa using Nat.succ_lt_succ hk)
          (Nat.succ_lt_succ hjk)
        simpa using this
      have hr := ih j0 hj0 hget0 hlast0
      simp [lastOcc, hr]

/-- Lookup in the built index: the last occurrence wins. -/
theorem dget_buildIndexMap (desc : List String) (name : String) :
    dget (buildIndexMap desc) name =
      match lastOcc desc name with
      | some k => some k
      | none => none := by
  unfold buildIndexMap
  rw [dget_buildIndexFrom desc [] 0 name]
  cases h : lastOcc desc name with
  | some k => simp
  | none => simp [dget]

/-- Any position stored in the built index is within bounds. -/
theorem dget_buildIndexMap_lt (desc : List String) (name : String) (i : Nat)
    (h : dget (buildIndexMap desc) name = some i) : i < desc.length := by
  rw [dget_buildIndexMap] at h
  cases hr : lastOcc desc name with
  | some k =>
    rw [hr] at h
    cases h
    exact lastOcc_lt_length desc name i hr
  | none => rw [hr] at h; cases h

/-! ### Helper lemmas about `List.getD`, `List.set` and `fillCells` -/

theorem listGetD_append_len {β : Type u} (l : List β) (x d : β) :
    (l ++ [x]).getD l.length d = x := by
  induction l with
  | nil => rfl
  | cons a as ih => simp [List.getD_cons_succ, ih]

theorem listGetD_append_left {β : Type u} (l l2 : List β) (i : Nat) (d : β)
    (h : i < l.length) : (l ++ l2).getD i d = l.getD i d := by
  induction l generalizing i with
  | nil => simp at h
  | cons a as ih =>
    cases i with
    | zero => simp
    | succ n =>
      simpa [List.getD_cons_succ] using
        ih n (by simpa using Nat.lt_of_succ_lt_succ h)

theorem listGetD_set_self {β : Type u} (l : List β) (i : Nat) (x d : β)
    (h : i < l.length) : (l.set i x).getD i d = x := by
  induction l generalizing i with
  | nil => simp at h
  | cons a as ih =>
    cases i with
    | zero => simp
    | succ n =>
      simpa [List.set, List.getD_cons_succ] using
        ih n (by simpa using Nat.lt_of_succ_lt_succ h)

theorem listGetD_set_ne {β : Type u} (l : List β) (i j : Nat) (x d : β)
    (h : i ≠ j) : (l.set i x).getD j d = l.getD j d := by
  induction l generalizing i j with
  | nil => simp [List.set]
  | cons a as ih =>
    cases i with
    | zero =>
      cases j with
      | zero => exact absurd rfl h
      | succ n => simp [List.set, List.getD_cons_succ]
    | succ n =>
      cases j with
      | zero => simp [List.set]
      | succ k =>
        simpa [List.set, List.getD_cons_succ] using
          ih n k (fun he => h (by rw [he]))

theorem fillCells_length {α : Type u} (cs : List (Option α)) (vs : List α) :
    (fillCells cs vs).length = cs.length := by
  induction cs generalizing vs with
  | nil => cases vs <;> simp [fillCells]
  | cons c cs ih =>
    cases vs with
    | nil => simp [fillCells]
    | cons v vs => simp [fillCells, ih]

/-- Cell count of a constructed `DictRow` is the column count. -/
theorem makeDictRow_cells_length {α : Type u} (ref descLen : Nat)
    (raw : List α) : (makeDictRow ref descLen raw).cells.length = descLen := by
  simp [makeDictRow, fillCells_length]

/-! ### `DictCursor` machine lemmas -/

namespace DictCursor

variable {α : Type u}

/-- State reached by the index-build check on a freshly executed machine. -/
theorem buildCheck_fresh (s : List Dict) (desc : List String)
    (pend : List (List α)) :
    buildCheck (⟨s ++ [[]], s.length, desc, pend, true⟩ : PGMachine α) =
      if desc.isEmpty then
        (⟨s ++ [[]], s.length, desc, pend, true⟩ : PGMachine α)
      else
        ⟨(s ++ [[]]).set s.length (buildIndexMap desc), s.length, desc, pend,
          false⟩ := by
  unfold buildCheck buildIndex
  by_cases hd : desc.isEmpty
  · simp [hd]
  · simp only [hd, Bool.not_false, Bool.and_true, if_true, Bool.not_eq_true]
    simp [listGetD_append_len, buildIndexMap]

theorem buildCheck_of_not_executed (m : PGMachine α)
    (h : m.queryExecuted = false) : buildCheck m = m := by
  simp [buildCheck, h]

theorem buildCheck_curIdx (m : PGMachine α) :
    (buildCheck m).curIdx = m.curIdx := by
  unfold buildCheck buildIndex
  split <;> try rfl
  split <;> rfl

theorem buildCheck_description (m : PGMachine α) :
    (buildCheck m).description = m.description := by
  unfold buildCheck buildIndex
  split <;> try rfl
  split <;> rfl

theorem buildCheck_pending (m : PGMachine α) :
    (buildCheck m).pending = m.pending := by
  unfold buildCheck buildIndex
  split <;> try rfl
  split <;> rfl

theorem buildCheck_store_length (m : PGMachine α) :
    (buildCheck m).store.length = m.store.length := by
  unfold buildCheck buildIndex
  split
  · split
    · simp
    · rfl
  · rfl

theorem buildCheck_getD_ne (m : PGMachine α) (j : Nat) (h : j ≠ m.curIdx) :
    (buildCheck m).store.getD j [] = m.store.getD j [] := by
  unfold buildCheck buildIndex
  split
  · split
    · simp only []
      exact listGetD_set_ne m.store m.curIdx j _ [] (fun he => h he.symm)
    · rfl
  · rfl

end DictCursor

namespace DictCursor

variable {α : Type u}

theorem makeDictRow_idxRef (ref descLen : Nat) (raw : List α) :
    (makeDictRow ref descLen raw).idxRef = ref := rfl

/-- Shape of a fetch-all right after an execution. -/
theorem fetchall_exec (m : PGMachine α) (desc : List String)
    (rows : List (List α)) :
    fetchall (execute m desc rows) =
      (rows.map (makeDictRow m.store.length desc.length),
       buildCheck
         (⟨m.store ++ [[]], m.store.length, desc, [], true⟩ : PGMachine α)) :=
  rfl

/-- After an execution, the first fetch leaves the index dict referenced by
the cursor equal to the built index of the statement's descriptors (for a
descriptor-less statement both sides are the empty dict). -/
theorem fetchall_exec_store_getD (m : PGMachine α) (desc : List String)
    (rows : List (List α)) :
    (fetchall (execute m desc rows)).2.store.getD m.store.length []
      = buildIndexMap desc := by
  have h : (fetchall (execute m desc rows)).2
      = buildCheck
          (⟨m.store ++ [[]], m.store.length, desc, [], true⟩ : PGMachine α) :=
    rfl
  rw [h, buildCheck_fresh]
  cases hd : desc.isEmpty with
  | true =>
    have hdesc : desc = [] := by simpa using hd
    subst hdesc
    simp [listGetD_append_len, buildIndexMap, buildIndexFrom]
  | false =>
    simp only [Bool.false_eq_true, if_false]
    apply listGetD_set_self
    simp

end DictCursor

/-- C1: every row fetched after an executed statement producing the column
descriptors `desc` has exactly `desc.length` cells at construction, and for
each column name present in the built index, name-based lookup on the row
returns exactly the value of positional lookup at that name's ordinal
position (both lookups succeeding). -/
theorem dictRow_length_and_name_lookup {α : Type u} (m : PGMachine α)
    (desc : List String) (rows : List (List α)) (r : DictRow α)
    (hr : r ∈ (DictCursor.fetchall (DictCursor.execute m desc rows)).1)
    (name : String) (i : Nat)
    (hlook : dget
      ((DictCursor.fetchall (DictCursor.execute m desc rows)).2.store.getD
        r.idxRef []) name = some i) :
    r.cells.length = desc.length ∧
    ∃ v,
      DictRow.getitem
        (DictCursor.fetchall (DictCursor.execute m desc rows)).2.store r
        (PyKey.str name) = .ok v ∧
      DictRow.getitem
        (DictCursor.fetchall (DictCursor.execute m desc rows)).2.store r
        (PyKey.int i) = .ok v := by
  have hfst : (DictCursor.fetchall (DictCursor.execute m desc rows)).1
      = rows.map (makeDictRow m.store.length desc.length) := rfl
  rw [hfst] at hr
  obtain ⟨raw, _hraw, hreq⟩ := List.mem_map.mp hr
  subst hreq
  have hlook0 := hlook
  rw [DictCursor.makeDictRow_idxRef,
    DictCursor.fetchall_exec_store_getD m desc rows] at hlook
  have hi : i < desc.length := dget_buildIndexMap_lt desc name i hlook
  have hlen : (makeDictRow m.store.length desc.length raw).cells.length
      = desc.length := makeDictRow_cells_length _ _ _
  have hic : i < (makeDictRow m.store.length desc.length raw).cells.length :=
    by rw [hlen]; exact hi
  refine ⟨hlen, (makeDictRow m.store.length desc.length raw).cells.get
    ⟨i, hic⟩, ?_, ?_⟩
  · simp only [DictRow.getitem, hlook0, listGet,
      List.getElem?_eq_getElem hic, List.get_eq_getElem]
  · simp only [DictRow.getitem, listGet, List.getElem?_eq_getElem hic,
      List.get_eq_getElem]

/-- Witness for C1 at a concrete two-column execution. -/
theorem dictRow_length_and_name_lookup_witness :
    ((makeDictRow 0 2 [1, 2] : DictRow Nat) ∈
      (DictCursor.fetchall (DictCursor.execute
        (⟨[], 0, [], [], false⟩ : PGMachine Nat) ["id", "name"]
        [[1, 2]])).1) ∧
    (dget
      ((DictCursor.fetchall (DictCursor.execute
        (⟨[], 0, [], [], false⟩ : PGMachine Nat) ["id", "name"]
        [[1, 2]])).2.store.getD
          (makeDictRow 0 2 [1, 2] : DictRow Nat).idxRef []) "id"
      = some 0) ∧
    ((makeDictRow 0 2 [1, 2] : DictRow Nat).cells.length
        = (["id", "name"] : List String).length ∧
      ∃ v,
        DictRow.getitem
          (DictCursor.fetchall (DictCursor.execute
            (⟨[], 0, [], [], false⟩ : PGMachine Nat) ["id", "name"]
            [[1, 2]])).2.store (makeDictRow 0 2 [1, 2] : DictRow Nat)
          (PyKey.str "id") = .ok v ∧
        DictRow.getitem
          (DictCursor.fetchall (DictCursor.execute
            (⟨[], 0, [], [], false⟩ : PGMachine Nat) ["id", "name"]
            [[1, 2]])).2.store (makeDictRow 0 2 [1, 2] : DictRow Nat)
          (PyKey.int 0) = .ok v) :=
  ⟨by decide, by decide,
    dictRow_length_and_name_lookup (⟨[], 0, [], [], false⟩ : PGMachine Nat)
      ["id", "name"] [[1, 2]] (makeDictRow 0 2 [1, 2]) (by decide) "id" 0
      (by decide)⟩

/-- C2: after an execution producing column descriptors, the first
`fetchmany` builds the index and clears the pending flag; a second
`fetchmany` on the same execution references the identical mapping (same
heap slot of the same store) and does not rebuild it: its only state change
is consuming pending rows. -/
theorem fetchmany_rebuilds_at_most_once {α : Type u} (m : PGMachine α)
    (desc : List String) (rows : List (List α)) (hdesc : desc ≠ [])
    (n1 n2 : Nat) :
    (DictCursor.fetchmany (DictCursor.execute m desc rows) n1).2.queryExecuted
      = false ∧
    (DictCursor.fetchmany (DictCursor.execute m desc rows) n1).2.store.getD
      (DictCursor.fetchmany (DictCursor.execute m desc rows) n1).2.curIdx []
      = buildIndexMap desc ∧
    (DictCursor.fetchmany
      (DictCursor.fetchmany (DictCursor.execute m desc rows) n1).2 n2).2
      = { (DictCursor.fetchmany (DictCursor.execute m desc rows) n1).2 with
            pending := ((DictCursor.fetchmany
              (DictCursor.execute m desc rows) n1).2.pending.drop n2) } ∧
    (∀ r ∈ (DictCursor.fetchmany (DictCursor.execute m desc rows) n1).1,
      r.idxRef =
        (DictCursor.fetchmany (DictCursor.execute m desc rows) n1).2.curIdx) ∧
    (∀ r ∈ (DictCursor.fetchmany
        (DictCursor.fetchmany (DictCursor.execute m desc rows) n1).2 n2).1,
      r.idxRef =
        (DictCursor.fetchmany (DictCursor.execute m desc rows) n1).2.curIdx) := by
  have hie : desc.isEmpty = false := by
    cases desc with
    | nil => exact absurd rfl hdesc
    | cons a as => rfl
  have hm2 : (DictCursor.fetchmany (DictCursor.execute m desc rows) n1).2
      = (⟨(m.store ++ [[]]).set m.store.length (buildIndexMap desc),
          m.store.length, desc, rows.drop n1, false⟩ : PGMachine α) := by
    have h0 : (DictCursor.fetchmany (DictCursor.execute m desc rows) n1).2
        = DictCursor.buildCheck
            (⟨m.store ++ [[]], m.store.length, desc, rows.drop n1, true⟩ :
              PGMachine α) := rfl
    rw [h0, DictCursor.buildCheck_fresh]
    simp [hie]
  have hfst : (DictCursor.fetchmany (DictCursor.execute m desc rows) n1).1
      = (rows.take n1).map (makeDictRow m.store.length desc.length) := rfl
  refine ⟨by rw [hm2], ?_, ?_, ?_, ?_⟩
  · rw [hm2]
    exact listGetD_set_self _ _ _ _ (by simp)
  · have h1 : (DictCursor.fetchmany
        (DictCursor.fetchmany (DictCursor.execute m desc rows) n1).2 n2).2
        = DictCursor.buildCheck
            { (DictCursor.fetchmany (DictCursor.execute m desc rows) n1).2 with
                pending := ((DictCursor.fetchmany
                  (DictCursor.execute m desc rows) n1).2.pending.drop n2) } :=
      rfl
    rw [h1, DictCursor.buildCheck_of_not_executed]
    rw [hm2]
  · intro r hr
    rw [hfst] at hr
    obtain ⟨raw, _hraw, hreq⟩ := List.mem_map.mp hr
    rw [hm2, ← hreq]
    rfl
  · intro r hr
    have h2 : (DictCursor.fetchmany
        (DictCursor.fetchmany (DictCursor.execute m desc rows) n1).2 n2).1
        = (((DictCursor.fetchmany (DictCursor.execute m desc rows) n1).2
            |>.pending.take n2).map
          (makeDictRow
            (DictCursor.fetchmany (DictCursor.execute m desc rows) n1).2.curIdx
            (DictCursor.fetchmany
              (DictCursor.execute m desc rows) n1).2.description.length)) :=
      rfl
    rw [h2] at hr
    obtain ⟨raw, _hraw, hreq⟩ := List.mem_map.mp hr
    rw [← hreq]
    rfl

/-- Witness for C2 at a concrete one-column, two-row execution. -/
theorem fetchmany_rebuilds_at_most_once_witness :
    (["a"] ≠ ([] : List String)) ∧
    (DictCursor.fetchmany (DictCursor.execute
      (⟨[], 0, [], [], false⟩ : PGMachine Nat) ["a"] [[1], [2]])
      1).2.queryExecuted = false ∧
    (DictCursor.fetchmany (DictCursor.execute
      (⟨[], 0, [], [], false⟩ : PGMachine Nat) ["a"] [[1], [2]])
      1).2.store.getD
      (DictCursor.fetchmany (DictCursor.execute
        (⟨[], 0, [], [], false⟩ : PGMachine Nat) ["a"] [[1], [2]])
        1).2.curIdx [] = buildIndexMap ["a"] :=
  ⟨by decide,
    (fetchmany_rebuilds_at_most_once
      (⟨[], 0, [], [], false⟩ : PGMachine Nat) ["a"] [[1], [2]]
      (by decide) 1 1).1,
    (fetchmany_rebuilds_at_most_once
      (⟨[], 0, [], [], false⟩ : PGMachine Nat) ["a"] [[1], [2]]
      (by decide) 1 1).2.1⟩

/-- C3: executing a second statement on the same cursor invalidates the
first statement's index: rows fetched after the second execution reference a
fresh heap slot holding the second statement's built index, while the dict
shared by the first execution's rows is left untouched by the second
execution and its fetches. -/
theorem second_execute_invalidates_first_index {α : Type u} (m : PGMachine α)
    (desc1 desc2 : List String) (rows1 rows2 : List (List α)) :
    (∀ r ∈ (DictCursor.fetchall (DictCursor.execute m desc1 rows1)).1,
      r.idxRef = (DictCursor.execute m desc1 rows1).curIdx) ∧
    (DictCursor.execute
        (DictCursor.fetchall (DictCursor.execute m desc1 rows1)).2
        desc2 rows2).curIdx ≠ (DictCursor.execute m desc1 rows1).curIdx ∧
    (DictCursor.fetchall (DictCursor.execute
        (DictCursor.fetchall (DictCursor.execute m desc1 rows1)).2
        desc2 rows2)).2.store.getD (DictCursor.execute m desc1 rows1).curIdx []
      = (DictCursor.fetchall (DictCursor.execute m desc1 rows1)).2.store.getD
          (DictCursor.execute m desc1 rows1).curIdx [] ∧
    (∀ r ∈ (DictCursor.fetchall (DictCursor.execute
        (DictCursor.fetchall (DictCursor.execute m desc1 rows1)).2
        desc2 rows2)).1,
      r.idxRef = (DictCursor.execute
        (DictCursor.fetchall (DictCursor.execute m desc1 rows1)).2
        desc2 rows2).curIdx ∧
      (DictCursor.fetchall (DictCursor.execute
          (DictCursor.fetchall (DictCursor.execute m desc1 rows1)).2
          desc2 rows2)).2.store.getD r.idxRef [] = buildIndexMap desc2) := by
  have hlen2 : (DictCursor.fetchall
      (DictCursor.execute m desc1 rows1)).2.store.length
      = m.store.length + 1 := by
    have h0 : (DictCursor.fetchall (DictCursor.execute m desc1 rows1)).2
        = DictCursor.buildCheck
            (⟨m.store ++ [[]], m.store.length, desc1, [], true⟩ :
              PGMachine α) := rfl
    rw [h0, DictCursor.buildCheck_store_length]
    simp
  have hcur3 : (DictCursor.execute
      (DictCursor.fetchall (DictCursor.execute m desc1 rows1)).2
      desc2 rows2).curIdx
      = m.store.length + 1 := by
    show (DictCursor.fetchall
      (DictCursor.execute m desc1 rows1)).2.store.length = _
    exact hlen2
  have hcur1 : (DictCursor.execute m desc1 rows1).curIdx = m.store.length :=
    rfl
  refine ⟨?_, ?_, ?_, ?_⟩
  · intro r hr
    obtain ⟨raw, _hraw, hreq⟩ := List.mem_map.mp hr
    rw [← hreq]
    rfl
  · rw [hcur3, hcur1]
    omega
  · -- the second execution's fetch only writes the fresh heap slot
    have h4 : (DictCursor.fetchall (DictCursor.execute
        (DictCursor.fetchall (DictCursor.execute m desc1 rows1)).2
        desc2 rows2)).2
        = DictCursor.buildCheck
            (⟨(DictCursor.fetchall
                (DictCursor.execute m desc1 rows1)).2.store ++ [[]],
              (DictCursor.fetchall
                (DictCursor.execute m desc1 rows1)).2.store.length,
              desc2, [], true⟩ : PGMachine α) := rfl
    rw [hcur1, h4, DictCursor.buildCheck_getD_ne]
    · exact listGetD_append_left _ _ _ _ (by omega)
    · show m.store.length
        ≠ (DictCursor.fetchall (DictCursor.execute m desc1 rows1)).2.store.length
      omega
  · intro r hr
    obtain ⟨raw, _hraw, hreq⟩ := List.mem_map.mp hr
    constructor
    · rw [← hreq]; rfl
    · have hidx : r.idxRef = (DictCursor.fetchall
          (DictCursor.execute m desc1 rows1)).2.store.length := by
        rw [← hreq]
        exact hlen2 ▸ (hcur3 ▸ rfl)
      rw [hidx]
      exact DictCursor.fetchall_exec_store_getD
        (DictCursor.fetchall (DictCursor.execute m desc1 rows1)).2 desc2 rows2

/-- Witness for C3: two executions with different column sets; the second
execution's row resolves against the second index and the first dict is
unchanged. -/
theorem second_execute_invalidates_first_index_witness :
    (DictCursor.fetchall (DictCursor.execute
        (DictCursor.fetchall (DictCursor.execute
          (⟨[], 0, [], [], false⟩ : PGMachine Nat) ["a"] [[1]])).2
        ["b", "c"] [[2, 3]])).2.store.getD
      (DictCursor.execute
        (⟨[], 0, [], [], false⟩ : PGMachine Nat) ["a"] [[1]]).curIdx []
      = (DictCursor.fetchall (DictCursor.execute
          (⟨[], 0, [], [], false⟩ : PGMachine Nat) ["a"] [[1]])).2.store.getD
          (DictCursor.execute
            (⟨[], 0, [], [], false⟩ : PGMachine Nat) ["a"] [[1]]).curIdx [] ∧
    ((makeDictRow 1 2 [2, 3] : DictRow Nat).idxRef
        = (DictCursor.execute
            (DictCursor.fetchall (DictCursor.execute
              (⟨[], 0, [], [], false⟩ : PGMachine Nat) ["a"] [[1]])).2
            ["b", "c"] [[2, 3]]).curIdx ∧
      (DictCursor.fetchall (DictCursor.execute
          (DictCursor.fetchall (DictCursor.execute
            (⟨[], 0, [], [], false⟩ : PGMachine Nat) ["a"] [[1]])).2
          ["b", "c"] [[2, 3]])).2.store.getD
        (makeDictRow 1 2 [2, 3] : DictRow Nat).idxRef []
        = buildIndexMap ["b", "c"]) :=
  ⟨(second_execute_invalidates_first_index
      (⟨[], 0, [], [], false⟩ : PGMachine Nat) ["a"] ["b", "c"]
      [[1]] [[2, 3]]).2.2.1,
    (second_execute_invalidates_first_index
      (⟨[], 0, [], [], false⟩ : PGMachine Nat) ["a"] ["b", "c"]
      [[1]] [[2, 3]]).2.2.2 (makeDictRow 1 2 [2, 3]) (by decide)⟩

/-- C6 counterexample: on an execution that produced a column descriptor but
no rows, `next` raises the stop signal while the pending-index-build check
has not run: the executed flag is still set and the cursor's index dict is
still empty, whereas running the check would have cleared the flag. -/
theorem next_stop_skips_build_check :
    (DictCursor.next (DictCursor.execute
        (⟨[], 0, [], [], false⟩ : PGMachine Nat) ["a"] [])).1
      = Except.error PyErr.stopIteration ∧
    (DictCursor.next (DictCursor.execute
        (⟨[], 0, [], [], false⟩ : PGMachine Nat) ["a"] [])).2.queryExecuted
      = true ∧
    (DictCursor.next (DictCursor.execute
        (⟨[], 0, [], [], false⟩ : PGMachine Nat) ["a"] [])).2.store.getD
      0 [] = [] ∧
    (DictCursor.buildCheck (DictCursor.execute
        (⟨[], 0, [], [], false⟩ : PGMachine Nat) ["a"] [])).queryExecuted
      = false :=
  ⟨rfl, rfl, rfl, rfl⟩

/-- C6 (amended): when sequential iteration finds no further row, the stop
signal is raised immediately and the cursor state is left untouched, without
running the pending-index-build check in that call; nevertheless an
execution whose row was consumed by an earlier `next` call already built its
index during that earlier call, so such an execution still ends with a
usable index after exhaustion. -/
theorem next_exhaustion_keeps_usable_index {α : Type u} (m : PGMachine α)
    (desc : List String) (r0 : List α) (hdesc : desc ≠ []) :
    (∃ row, (DictCursor.next (DictCursor.execute m desc [r0])).1
      = .ok row) ∧
    (DictCursor.next (DictCursor.execute m desc [r0])).2.queryExecuted
      = false ∧
    (DictCursor.next (DictCursor.execute m desc [r0])).2.store.getD
      (DictCursor.next (DictCursor.execute m desc [r0])).2.curIdx []
      = buildIndexMap desc ∧
    (DictCursor.next
      ((DictCursor.next (DictCursor.execute m desc [r0])).2)).1
      = .error .stopIteration ∧
    (DictCursor.next
      ((DictCursor.next (DictCursor.execute m desc [r0])).2)).2
      = (DictCursor.next (DictCursor.execute m desc [r0])).2 := by
  have hie : desc.isEmpty = false := by
    cases desc with
    | nil => exact absurd rfl hdesc
    | cons a as => rfl
  have hm2 : (DictCursor.next (DictCursor.execute m desc [r0])).2
      = (⟨(m.store ++ [[]]).set m.store.length (buildIndexMap desc),
          m.store.length, desc, [], false⟩ : PGMachine α) := by
    have h0 : (DictCursor.next (DictCursor.execute m desc [r0])).2
        = DictCursor.buildCheck
            (⟨m.store ++ [[]], m.store.length, desc, [], true⟩ :
              PGMachine α) := rfl
    rw [h0, DictCursor.buildCheck_fresh]
    simp [hie]
  refine ⟨⟨makeDictRow m.store.length desc.length r0, rfl⟩, ?_, ?_, ?_, ?_⟩
  · rw [hm2]
  · rw [hm2]
    exact listGetD_set_self _ _ _ _ (by simp)
  · rw [hm2]
    rfl
  · rw [hm2]
    rfl

/-- Witness for the amended C6 at a concrete single-row execution. -/
theorem next_exhaustion_keeps_usable_index_witness :
    (["a"] ≠ ([] : List String)) ∧
    (DictCursor.next (DictCursor.execute
        (⟨[], 0, [], [], false⟩ : PGMachine Nat) ["a"] [[7]])).2.queryExecuted
      = false ∧
    (DictCursor.next
      ((DictCursor.next (DictCursor.execute
        (⟨[], 0, [], [], false⟩ : PGMachine Nat) ["a"] [[7]])).2)).1
      = Except.error PyErr.stopIteration :=
  ⟨by decide,
    (next_exhaustion_keeps_usable_index
      (⟨[], 0, [], [], false⟩ : PGMachine Nat) ["a"] [7] (by decide)).2.1,
    (next_exhaustion_keeps_usable_index
      (⟨[], 0, [], [], false⟩ : PGMachine Nat) ["a"] [7]
      (by decide)).2.2.2.1⟩

/-- C10: when two column descriptors of one execution carry the same name,
the built index maps that name to the ordinal position of its last
occurrence, so name-based lookup on any row referencing that index returns
the value of positional lookup at the last duplicate's position. -/
theorem duplicate_name_last_wins {γ : Type u} (desc : List String)
    (name : String) (i j : Nat) (hi : i < desc.length) (hj : j < desc.length)
    (_hij : i < j) (_hni : desc.get ⟨i, hi⟩ = name)
    (hnj : desc.get ⟨j, hj⟩ = name)
    (hlast : ∀ k (hk : k < desc.length), j < k → desc.get ⟨k, hk⟩ ≠ name)
    (store : List Dict) (r : DictRow γ)
    (hstore : store.getD r.idxRef [] = buildIndexMap desc) :
    dget (buildIndexMap desc) name = some j ∧
    DictRow.getitem store r (PyKey.str name)
      = DictRow.getitem store r (PyKey.int j) := by
  have hocc : lastOcc desc name = some j :=
    lastOcc_of_last desc name j hj hnj hlast
  have hdg : dget (buildIndexMap desc) name = some j := by
    rw [dget_buildIndexMap, hocc]
  refine ⟨hdg, ?_⟩
  simp only [DictRow.getitem, hstore, hdg]

/-- Witness for C10 on a two-column result whose columns share one name. -/
theorem duplicate_name_last_wins_witness :
    dget (buildIndexMap ["a", "a"]) "a" = some 1 ∧
    DictRow.getitem [buildIndexMap ["a", "a"]]
      (makeDictRow 0 2 [10, 20] : DictRow Nat) (PyKey.str "a")
      = DictRow.getitem [buildIndexMap ["a", "a"]]
          (makeDictRow 0 2 [10, 20] : DictRow Nat) (PyKey.int 1) :=
  duplicate_name_last_wins ["a", "a"] "a" 0 1 (by decide) (by decide)
    (by decide) rfl rfl
    (by
      intro k hk h2
      simp only [List.length_cons, List.length_nil] at hk
      exact absurd h2 (by omega))
    [buildIndexMap ["a", "a"]] (makeDictRow 0 2 [10, 20]) rfl

/-- C4: the base logging cursor's `execute` and `callproc` delegate inside a
guaranteed-cleanup region: the filter/log step runs exactly once, after the
underlying call completes and with the materialised statement text, whether
the underlying call succeeded or raised, and the caller observes the
underlying outcome unchanged. -/
theorem logging_cursor_logs_exactly_once {ε ρ : Type u}
    (u1 u2 : Except ε ρ) (q p : String) (filt : String → Option String) :
    (LoggingCursor.execute u1 q filt).1 = u1 ∧
    (LoggingCursor.execute u1 q filt).2.countP
      (fun e => match e with | Ev.filterCalled _ => true | _ => false) = 1 ∧
    (∃ tail, (LoggingCursor.execute u1 q filt).2
      = Ev.underlyingExec q :: Ev.filterCalled q :: tail) ∧
    (LoggingCursor.callproc u2 p filt).1 = u2 ∧
    (LoggingCursor.callproc u2 p filt).2.countP
      (fun e => match e with | Ev.filterCalled _ => true | _ => false) = 1 ∧
    (∃ tail, (LoggingCursor.callproc u2 p filt).2
      = Ev.underlyingCallproc p :: Ev.filterCalled p :: tail) := by
  have hmap : ∀ l : List String,
      (l.map Ev.wrote).countP
        (fun e => match e with | Ev.filterCalled _ => true | _ => false)
        = 0 := by
    intro l
    induction l with
    | nil => rfl
    | cons a as ih => simp [List.countP_cons, ih]
  refine ⟨rfl, ?_,
    ⟨(LoggingConnection.logtofile filt q).map Ev.wrote, rfl⟩, rfl, ?_,
    ⟨(LoggingConnection.logtofile filt p).map Ev.wrote, rfl⟩⟩
  · show (Ev.underlyingExec q :: Ev.filterCalled q ::
      (LoggingConnection.logtofile filt q).map Ev.wrote).countP _ = 1
    simp [List.countP_cons, hmap]
  · show (Ev.underlyingCallproc p :: Ev.filterCalled p ::
      (LoggingConnection.logtofile filt p).map Ev.wrote).countP _ = 1
    simp [List.countP_cons, hmap]

/-- C5: under the timed filter with threshold `mintime`, an execution whose
elapsed milliseconds are at most the threshold writes nothing to the sink,
and one whose elapsed milliseconds strictly exceed it writes exactly one
entry, which begins with the original statement text and ends with the
rendered timing value. -/
theorem min_time_filter_gates_log (mintime now timestamp : ℚ)
    (msg : String) :
    ((now - timestamp) * 1000 ≤ mintime →
      LoggingConnection.logtofile
        (MinTimeLoggingConnection.filter mintime now timestamp) msg = []) ∧
    ((now - timestamp) * 1000 > mintime →
      LoggingConnection.logtofile
        (MinTimeLoggingConnection.filter mintime now timestamp) msg
        = [msg ++ osLinesep ++ "  (execution time: " ++
            toString (pyTrunc ((now - timestamp) * 1000)) ++ " ms)" ++
            osLinesep] ∧
      msg.data <+: (msg ++ osLinesep ++ "  (execution time: " ++
          toString (pyTrunc ((now - timestamp) * 1000)) ++ " ms)" ++
          osLinesep).data ∧
      (" ms)" ++ osLinesep).data <:+ (msg ++ osLinesep ++
          "  (execution time: " ++
          toString (pyTrunc ((now - timestamp) * 1000)) ++ " ms)" ++
          osLinesep).data) := by
  constructor
  · intro h
    have hnot : ¬ ((now - timestamp) * 1000 > mintime) := not_lt.mpr h
    simp [LoggingConnection.logtofile, MinTimeLoggingConnection.filter, hnot]
  · intro h
    have hne : (msg ++ osLinesep ++ "  (execution time: " ++
        toString (pyTrunc ((now - timestamp) * 1000)) ++ " ms)") ≠ "" := by
      intro he
      have hlen := congrArg String.length he
      simp [String.length_append, osLinesep] at hlen
      exact absurd hlen.2 (by decide)
    refine ⟨?_, ?_, ?_⟩
    · simp [LoggingConnection.logtofile, MinTimeLoggingConnection.filter, h,
        hne]
    · simp only [String.data_append, List.append_assoc]
      exact List.prefix_append _ _
    · simp only [String.data_append, List.append_assoc]
      exact (List.suffix_append _ _).trans
        (List.suffix_append _ _) |>.trans (List.suffix_append _ _)
        |>.trans (List.suffix_append _ _)

/-- Witness for C5 with threshold 100 ms: a 50 ms execution writes nothing,
a 150 ms execution writes one annotated entry. -/
theorem min_time_filter_gates_log_witness :
    (((1 : ℚ)/20 - 0) * 1000 ≤ 100 ∧
      LoggingConnection.logtofile
        (MinTimeLoggingConnection.filter 100 (1/20) 0) "SELECT 1" = []) ∧
    (((3 : ℚ)/20 - 0) * 1000 > 100 ∧
      LoggingConnection.logtofile
        (MinTimeLoggingConnection.filter 100 (3/20) 0) "SELECT 1"
        = ["SELECT 1" ++ osLinesep ++ "  (execution time: " ++
            toString (pyTrunc (((3 : ℚ)/20 - 0) * 1000)) ++ " ms)" ++
            osLinesep]) :=
  ⟨⟨by norm_num,
    (min_time_filter_gates_log 100 (1/20) 0 "SELECT 1").1 (by norm_num)⟩,
   ⟨by norm_num,
    ((min_time_filter_gates_log 100 (3/20) 0 "SELECT 1").2
      (by norm_num)).1⟩⟩

/-- C7: asking a logging-capable connection for a cursor and executing
through it fails with the not-initialised `ProgrammingError`, with no
statement executed, while the sink is absent, and succeeds (delegating and
logging) once the sink has been recorded. -/
theorem logging_conn_requires_initialization {σ ε ρ : Type u}
    (c : LoggingConnection.State σ) (s : σ) (u : Except ε ρ) (q : String)
    (filt : String → Option String) :
    (c.logobj = none →
      connCursorExecute c u q filt = (.error .programmingError, [])) ∧
    connCursorExecute (LoggingConnection.init c s) u q filt
      = (.ok u, Ev.underlyingExec q :: LoggingConnection.logCall filt q) := by
  constructor
  · intro h
    simp [connCursorExecute, LoggingConnection.check, h]
  · simp [connCursorExecute, LoggingConnection.check, LoggingConnection.init,
      LoggingCursor.execute]

/-- Witness for C7: the uninitialised connection refuses with an empty
trace; the initialised one executes and logs. -/
theorem logging_conn_requires_initialization_witness :
    ((⟨none⟩ : LoggingConnection.State Unit).logobj = none) ∧
    connCursorExecute (⟨none⟩ : LoggingConnection.State Unit)
      (Except.ok 3 : Except Unit Nat) "SELECT 1" LoggingConnection.filter
      = (.error .programmingError, []) ∧
    connCursorExecute
      (LoggingConnection.init (⟨none⟩ : LoggingConnection.State Unit) ())
      (Except.ok 3 : Except Unit Nat) "SELECT 1" LoggingConnection.filter
      = (.ok (Except.ok 3),
         Ev.underlyingExec "SELECT 1" ::
           LoggingConnection.logCall LoggingConnection.filter "SELECT 1") :=
  ⟨rfl,
    (logging_conn_requires_initialization
      (⟨none⟩ : LoggingConnection.State Unit) () (Except.ok 3) "SELECT 1"
      LoggingConnection.filter).1 rfl,
    (logging_conn_requires_initialization
      (⟨none⟩ : LoggingConnection.State Unit) () (Except.ok 3) "SELECT 1"
      LoggingConnection.filter).2⟩

/-- C8: evaluating `MinTimeLoggingCursor.callproc` as the source writes it:
the start timestamp is recorded, but the call raises `NameError` (the
argument expression names the undefined `var`) and no underlying procedure
call, filter call or sink write takes place, so the procedure-call primitive
is never reached and its result is never returned. -/
theorem min_time_callproc_raises_name_error
    (st : MinTimeLoggingCursor.State) (now : ℚ) (procname : String) :
    (MinTimeLoggingCursor.callproc st now procname :
        MinTimeLoggingCursor.State × (Except PyErr Unit × List Ev))
      = (⟨some now⟩, (.error .nameError, [])) := rfl

/-- Splitting the head of a join across an append. -/
theorem pyJoin_append_head (sep x y : String) (bs : List String) :
    SQL_IN.pyJoin sep ((x ++ y) :: bs) = x ++ SQL_IN.pyJoin sep (y :: bs) := by
  cases bs with
  | nil => rfl
  | cons c cs => simp [SQL_IN.pyJoin, String.append_assoc]

/-- Python's `join` agrees with the library's `intercalate`. -/
theorem pyJoin_eq_intercalate (sep : String) (l : List String) :
    SQL_IN.pyJoin sep l = String.intercalate sep l := by
  cases l with
  | nil => rfl
  | cons a as =>
    show SQL_IN.pyJoin sep (a :: as) = String.intercalate.go a sep as
    induction as generalizing a with
    | nil => rfl
    | cons b bs ih =>
      have hgo : String.intercalate.go a sep (b :: bs)
          = String.intercalate.go (a ++ sep ++ b) sep bs := rfl
      rw [hgo, ← ih (a ++ sep ++ b)]
      have hsplit : SQL_IN.pyJoin sep ((a ++ sep ++ b) :: bs)
          = (a ++ sep) ++ SQL_IN.pyJoin sep (b :: bs) :=
        pyJoin_append_head sep (a ++ sep) b bs
      rw [hsplit]
      rfl

/-- C9: the sequence-literal adapter's quoted output adapts every element of
the wrapped sequence independently through the external adaptation
collaborator, joins the elements' quoted texts with a comma and a space, and
wraps the whole in parentheses; the empty sequence yields exactly the text
of an empty parenthesis pair. -/
theorem sql_in_getquoted_shape {α : Type u} (adaptQuoted : α → String)
    (seq : List α) :
    SQL_IN.getquoted adaptQuoted seq
      = "(" ++ String.intercalate ", " (seq.map adaptQuoted) ++ ")" ∧
    SQL_IN.getquoted adaptQuoted ([] : List α) = "()" := by
  constructor
  · unfold SQL_IN.getquoted
    rw [pyJoin_eq_intercalate]
  · rfl
